import Mathlib

/-
A verification development for the mu-parser combinator library.

The library validates untyped runtime data (the output of deserializing a
wire format) with composable parsers.  This file gives a shallow embedding
of its core in Lean:

* JavaScript runtime values are modelled with an explicit heap
  (`JsVal`, `HeapNode`, `Heap`): objects and arrays are heap nodes reached
  through `JsVal.ref`, so reference identity is heap-address equality and
  cyclic object graphs are representable.  Numbers are embedded as `Int`
  (no claim involves `NaN` or `-0`, the only places where `SameValueZero`
  differs from value equality on our primitives).
* `ParserState` mirrors `packages/mu-parser/src/parser-state.ts`
  (the class re-exported through `src/index.ts`): focus (`input`), `path`,
  identity-keyed `visited` set, and caller auxiliary `state`.
* A parser (`MuParser`) is a function from state to either a value with a
  next state, or a thrown exception.  JavaScript exceptions are modelled by
  `Except Thrown`: `Thrown.parserErr` is the library's own `ParserError`
  (`parser-error.ts`), `Thrown.other` is any other thrown value, carried
  opaquely by its payload.
* The combinators (`map`, `andThen`, `recover`, `orElse`, `optional`,
  `combine`, `runParser`, `success`, `fail`, `path`, `input`, `getState`,
  `updateState`) are translated from `parser.ts`; `attempt` composed with
  `ParserError.recover` (`utils.ts`, `parser-error.ts`) becomes a match
  that handles `Thrown.parserErr` and re-raises everything else.
* The structural parsers (`parseStr`, `parseNum`, `parseObj`, `parseField`,
  `parseList`) are translated from `parsers/parsers.ts`.
* A `combine` builder callback is straight-line code that invokes `bind`
  sequentially; it is reified as the `Builder` program type, and `combine`
  is its interpreter: the source's mutable local `state` variable becomes
  state threading, and the exception thrown by a failing `bind` becomes
  error propagation that skips the rest of the program.

Field keys are embedded at `String` (the source also admits number and
symbol keys; every claim under study uses string field names), objects are
records without prototype chains (deserialized data), and path segments
(`JsKey`) are field names or array indices, as pushed by
`ParserState.visiting`.
-/

/-- Decidable equality of run results (core provides none for `Except`). -/
instance {e a : Type _} [DecidableEq e] [DecidableEq a] : DecidableEq (Except e a) := fun x y =>
  match x, y with
  | .ok u, .ok v =>
    if h : u = v then .isTrue (congrArg Except.ok h)
    else .isFalse (fun hh => h (Except.ok.inj hh))
  | .error u, .error v =>
    if h : u = v then .isTrue (congrArg Except.error h)
    else .isFalse (fun hh => h (Except.error.inj hh))
  | .ok _, .error _ => .isFalse (fun hh => Except.noConfusion hh)
  | .error _, .ok _ => .isFalse (fun hh => Except.noConfusion hh)

namespace MuSpec

/-- Primitive JavaScript values (compared by value in a JS `Set`). -/
inductive JsPrim where
  | str : String → JsPrim
  | num : Int → JsPrim
  | bool : Bool → JsPrim
  | null : JsPrim
  | undef : JsPrim
deriving DecidableEq, Repr

/-- A JavaScript value: a primitive, or a reference to a heap node.
Reference identity is equality of heap addresses, which is what the
`Set.has` in `ParserState.visited` compares for objects (SameValueZero). -/
inductive JsVal where
  | prim : JsPrim → JsVal
  | ref : Nat → JsVal
deriving DecidableEq, Repr

/-- A heap node: a plain object (string-keyed record) or an array. -/
inductive HeapNode where
  | obj : List (String × JsVal) → HeapNode
  | arr : List JsVal → HeapNode
deriving DecidableEq, Repr

/-- The object graph of one input value; immutable during a parse. -/
abbrev Heap := List HeapNode

/-- JavaScript `typeof`, restricted to the values we model.  Note
`typeof null` is `"object"` in JavaScript. -/
def jsTypeof : JsVal → String
  | .prim (.str _) => "string"
  | .prim (.num _) => "number"
  | .prim (.bool _) => "boolean"
  | .prim .null => "object"
  | .prim .undef => "undefined"
  | .ref _ => "object"

/-- A path segment, as pushed by `ParserState.visiting`: a field name or an
array index (`parsers.ts` pushes the element index for lists). -/
inductive JsKey where
  | str : String → JsKey
  | idx : Nat → JsKey
deriving DecidableEq, Repr

/-- First-match lookup in an object's own fields. -/
def lookupField : List (String × JsVal) → String → Option JsVal
  | [], _ => none
  | (k, v) :: rest, name => if k = name then some v else lookupField rest name

/-- The member access pair `name in record` / `record[name]` of
`parseField` (`parsers/parsers.ts` lines 56-57): `some` when the key is
present, with the stored value.  On arrays the own keys are the canonical
indices and `length`, matching the `in` operator on deserialized data. -/
def getMember (H : Heap) (v : JsVal) (name : String) : Option JsVal :=
  match v with
  | .ref n =>
    match H.get? n with
    | some (.obj fields) => lookupField fields name
    | some (.arr elems) =>
      if name = "length" then some (.prim (.num elems.length))
      else
        match name.toNat? with
        | some i => if toString i = name then elems.get? i else none
        | none => none
    | none => none
  | .prim _ => none

/-- `ParserError` from `parser-error.ts`: reason and the path at failure. -/
structure ParserError where
  reason : String
  path : List JsKey
deriving DecidableEq, Repr

/-- What a run can throw: the library's own `ParserError`, or any other
exception (a programmer error inside a user-supplied predicate, or the
fatal `Error` built by `runParser`), carried opaquely by its payload. -/
inductive Thrown where
  | parserErr : ParserError → Thrown
  | other : String → Thrown
deriving DecidableEq, Repr

/-- `ParserState` from `parser-state.ts` (re-exported via `src/index.ts`):
the focus value (`input`), the path from the root, the identity-keyed set
of values descended into on the current chain, and the caller's auxiliary
state.  The JS `Set` is embedded as a list; only membership is consulted. -/
structure ParserState (S : Type) where
  input : JsVal
  path : List JsKey
  visited : List JsVal
  state : S
deriving DecidableEq, Repr

/-- `ParserState.empty` (`parser-state.ts`): root focus, empty path and
visited set. -/
def ParserState.empty (input : JsVal) (initialState : S) : ParserState S :=
  ⟨input, [], [], initialState⟩

/-- `ParserState.updateState` (`parser-state.ts`): replace only the
auxiliary state. -/
def ParserState.updateState (st : ParserState S) (updater : S → S) : ParserState S :=
  ⟨st.input, st.path, st.visited, updater st.state⟩

/-- `ParserState.visiting` (`src/index.ts` lines 49-56): descend into
`target`, pushing the path segment and adding `target` to a fresh copy of
the visited set (`new Set([...this.visited, target])`).  Note this method
performs no cycle check itself in the current source. -/
def ParserState.visiting (st : ParserState S) (seg : JsKey) (target : JsVal) : ParserState S :=
  ⟨target, st.path ++ [seg], st.visited ++ [target], st.state⟩

/-- A parser (`parser.ts`): its `run` function, from a state to a value
paired with the next state, or a thrown exception. -/
abbrev MuParser (T S : Type) := ParserState S → Except Thrown (T × ParserState S)

/-- `ok` / `parserResult` (`parser-result.ts`): a successful run result. -/
def parserResult (val : T) (st : ParserState S) : Except Thrown (T × ParserState S) :=
  .ok (val, st)

/-- `err` / `parserError` (`parser-result.ts`): throw a `ParserError`
carrying the reason and the state's current path. -/
def parserError (reason : String) (st : ParserState S) : Except Thrown (T × ParserState S) :=
  .error (.parserErr ⟨reason, st.path⟩)

/-- `map` (`parser.ts`): transform the value of a successful run. -/
def MuParser.map (p : MuParser T S) (f : T → R) : MuParser R S := fun ctx =>
  match p ctx with
  | .ok (res, newCtx) => parserResult (f res) newCtx
  | .error e => .error e

/-- `andThen` (`parser.ts`): run `f` on the success value against the new
state; a failure of the first step propagates and `f` is never consulted. -/
def MuParser.andThen (p : MuParser T S) (f : T → MuParser R S) : MuParser R S := fun st =>
  match p st with
  | .ok (a, newSt) => f a newSt
  | .error e => .error e

/-- `recover` (`parser.ts` lines 32-38): `attempt` the run; a thrown
`ParserError` is handed to `fn` and the recovery parser runs against the
original input state `st`; any other thrown value is re-raised unchanged
(`ParserError.recover` from `utils.ts` lines 1-10 rethrows it). -/
def MuParser.recover (p : MuParser T S) (fn : ParserError → MuParser T S) : MuParser T S :=
  fun st =>
    match p st with
    | .ok r => .ok r
    | .error (.parserErr e) => fn e st
    | .error (.other s) => .error (.other s)

/-- `success` (`parser.ts`): always succeed with `val`, state unchanged. -/
def success (val : T) : MuParser T S := fun ctx => parserResult val ctx

/-- `orElse` (`parser.ts` line 39): `recover` ignoring the error. -/
def MuParser.orElse (p other : MuParser T S) : MuParser T S :=
  p.recover (fun _ => other)

/-- `optional` (`parser.ts` lines 40-42): `orElse (success undefined)`.
The TypeScript result type `undefined | T` is embedded as `Option T`, the
wrapped parser's value tagged with `some` and `undefined` with `none`. -/
def MuParser.optional (p : MuParser T S) : MuParser (Option T) S :=
  (p.map some).orElse (success none)

/-- `fail` (`parser.ts`): always throw a `ParserError` with the given
reason at the current path. -/
def fail (reason : String) : MuParser T S := fun ctx => parserError reason ctx

/-- `input` (`parser.ts`): yield the focus unchanged. -/
def input : MuParser JsVal S := fun st => parserResult st.input st

/-- `path` (`parser.ts`): yield a copy of the current path. -/
def path : MuParser (List JsKey) S := fun ctx => .ok (ctx.path, ctx)

/-- `updateState` (`parser.ts`): replace the auxiliary state and yield it. -/
def updateState (updater : S → S) : MuParser S S := fun ctx =>
  parserResult (ctx.updateState updater).state (ctx.updateState updater)

/-- `getState` (`parser.ts`): yield the auxiliary state. -/
def getState : MuParser S S := fun st => .ok (st.state, st)

/-- A reified `combine` builder callback (`parser.ts` lines 53-55): a
straight-line program that binds parsers one after another and finally
computes a value from the bound results. -/
inductive Builder (S : Type) : Type → Type 1 where
  | done : {T : Type} → T → Builder S T
  | bind : {R T : Type} → MuParser R S → (R → Builder S T) → Builder S T

/-- The interpreter giving `combine` (`parser.ts` lines 57-69) its
semantics: each `bind` runs its parser against the state threaded so far
(the source's mutable local `state` variable), on success threads the
parser's resulting state to the rest of the program, and on failure the
thrown error propagates at once, skipping the rest; the final value is
paired with the threaded state (`ok(parsers(...), state)`). -/
def runBuilder : Builder S T → MuParser T S
  | .done v, state => .ok (v, state)
  | .bind p k, state =>
    match p state with
    | .ok (res, nextState) => runBuilder (k res) nextState
    | .error e => .error e
termination_by structural b _ => b

/-- `combine` (`parser.ts` lines 57-69). -/
def combine (parsers : Builder S T) : MuParser T S := runBuilder parsers

/-- JavaScript `String.prototype.replace` with a single-character string
pattern: it replaces only the first occurrence. -/
def replaceFirstChar : List Char → Char → List Char → List Char
  | [], _, _ => []
  | x :: xs, c, rep => if x = c then rep ++ xs else x :: replaceFirstChar xs c rep

/-- `s.replace(c, rep)` for a one-character pattern `c`. -/
def jsReplaceFirst (s : String) (c : Char) (rep : String) : String :=
  ⟨replaceFirstChar s.data c rep.data⟩

/-- `String(part)` on a path segment. -/
def keyToString : JsKey → String
  | .str s => s
  | .idx n => toString n

/-- `toJsonPointerRefToken` (`utils.ts` lines 29-30):
`` `/${String(part).replace("~", "~0").replace("/", "~1")}` ``. -/
def toJsonPointerRefToken (part : JsKey) : String :=
  "/" ++ jsReplaceFirst (jsReplaceFirst (keyToString part) '~' "~0") '/' "~1"

/-- `path.map(toJsonPointerRefToken).join("")` from `runParser`. -/
def prettyPath (p : List JsKey) : String :=
  String.join (p.map toJsonPointerRefToken)

/-- `runParser` (`parser.ts` lines 95-114): run the parser on the empty
state; unwrap the value on success; on a thrown `ParserError` either hand
`{reason, path}` to `onError` or throw a fresh fatal `Error` with the
formatted message; any other thrown value propagates unchanged
(`attempt` with `ParserError.recover`).  The `T ⊕ T2` tags the TypeScript
union `T1 | T2` of the parser's and the handler's result types. -/
def runParser (p : MuParser T S) (inputVal : JsVal) (initialState : S)
    (onError : Option (ParserError → T2)) : Except Thrown (T ⊕ T2) :=
  match p (ParserState.empty inputVal initialState) with
  | .ok (v, _) => .ok (.inl v)
  | .error (.parserErr e) =>
    match onError with
    | some handler => .ok (.inr (handler e))
    | none => .error (.other (e.reason ++ " at path \"" ++ prettyPath e.path ++ "\""))
  | .error (.other s) => .error (.other s)

/-- `parseStr` (`parsers/parsers.ts` lines 4-10). -/
def parseStr : MuParser String S := fun ctx =>
  match ctx.input with
  | .prim (.str s) => parserResult s ctx
  | _ => parserError "string expected" ctx

/-- `parseNum` (`parsers/parsers.ts` lines 26-32). -/
def parseNum : MuParser Int S := fun ctx =>
  match ctx.input with
  | .prim (.num n) => parserResult n ctx
  | _ => parserError "number expected" ctx

/-- `parseObj` (`parsers/parsers.ts` lines 34-46):
`typeof target === "object" && target !== null` yields the value itself,
anything else fails with `object expected`. -/
def parseObj : MuParser JsVal S := fun ctx =>
  if jsTypeof ctx.input = "object" ∧ ctx.input ≠ .prim .null then
    parserResult ctx.input ctx
  else
    parserError "object expected" ctx

/-- The second parser bound inside `parseField` (`parsers/parsers.ts`
lines 55-65): if `name` is a member of `record`, check the child value's
identity against the visited set — failing with
`circular reference detected` when present — otherwise descend with
`ctx.visiting(name, nextTarget)`, run the field parser there, and on its
success return its value paired with the undescended `ctx`; when `name`
is absent fail with `property '<name>' expected`. -/
def parseFieldBody (H : Heap) (name : String) (fieldParser : MuParser T S)
    (record : JsVal) : MuParser T S := fun ctx =>
  match getMember H record name with
  | some nextTarget =>
    if nextTarget ∈ ctx.visited then
      parserError "circular reference detected" ctx
    else
      match fieldParser (ctx.visiting (.str name) nextTarget) with
      | .ok (result, _) => parserResult result ctx
      | .error e => .error e
  | none => parserError ("property '" ++ name ++ "' expected") ctx

/-- `parseField` (`parsers/parsers.ts` lines 48-69): a `combine` block
binding `parseObj` and then the member/cycle/descent step. -/
def parseField (H : Heap) (name : String) (fieldParser : MuParser T S) : MuParser T S :=
  combine (.bind parseObj fun record =>
    .bind (parseFieldBody H name fieldParser record) fun result =>
    .done result)

/-- The element loop of `parseList` (`parsers/parsers.ts` lines 76-81),
`target.reduce(...)` purified: each element is descended into with
`ctx.visiting(idx, item)` — forking path and visited from the list's own
state `ctx`, with no cycle check — and the item parser's thrown error
aborts the loop at once. -/
def parseListGo (itemParser : MuParser T S) (ctx : ParserState S) :
    List JsVal → Nat → Except Thrown (List T)
  | [], _ => .ok []
  | item :: rest, idx =>
    match itemParser (ctx.visiting (.idx idx) item) with
    | .ok (res, _) =>
      match parseListGo itemParser ctx rest (idx + 1) with
      | .ok results => .ok (res :: results)
      | .error e => .error e
    | .error e => .error e

/-- `parseList` (`parsers/parsers.ts` lines 71-85): on an array focus run
the item parser on every element in index order and yield the collected
results with the undescended `ctx`; otherwise fail with `array expected`. -/
def parseList (H : Heap) (itemParser : MuParser T S) : MuParser (List T) S := fun ctx =>
  match ctx.input with
  | .ref n =>
    match H.get? n with
    | some (.arr elems) =>
      match parseListGo itemParser ctx elems 0 with
      | .ok results => parserResult results ctx
      | .error e => .error e
    | _ => parserError "array expected" ctx
  | .prim _ => parserError "array expected" ctx

/-! Concrete object graphs and parsers used to instantiate the theorems. -/

/-- The input `{a: leaf, b: leaf}` where both fields reference the one heap
node `{foo: "bar"}` (address 1). -/
def sibHeap : Heap :=
  [.obj [("a", .ref 1), ("b", .ref 1)], .obj [("foo", .prim (.str "bar"))]]

/-- A leaf validator descending into `foo`. -/
def leafParser0 : MuParser String Unit := parseField sibHeap "foo" parseStr

/-- A `combine` block binding the two sibling fields in order. -/
def siblingParser0 : MuParser (String × String) Unit :=
  combine (.bind (parseField sibHeap "a" leafParser0) fun a =>
    .bind (parseField sibHeap "b" leafParser0) fun b => .done (a, b))

/-- An error handler exposing reason and path, as in the repository's
tests. -/
def reasonPath : ParserError → String × List JsKey := fun e => (e.reason, e.path)

/-- The self-referential input `r = {next: r}`. -/
def loopHeap : Heap := [.obj [("next", .ref 0)]]

/-- A finite two-level probe into the self-loop: `field("next",
field("next", parseStr))`. -/
def circProbe : MuParser String Unit :=
  parseField loopHeap "next" (parseField loopHeap "next" parseStr)

/-- The self-referential array `a = [a]`. -/
def selfArrHeap : Heap := [.arr [.ref 0]]

/-- The input `{}`. -/
def emptyObjHeap : Heap := [.obj []]

/-- The input `{"a/b/c": {}}`, whose field name needs JSON-Pointer
escaping of two slashes. -/
def slashHeap : Heap := [.obj [("a/b/c", .ref 1)], .obj []]

/-- A concrete non-empty state over the empty-object input, used to
instantiate frame theorems. -/
def probeState : ParserState Unit := ParserState.empty (.ref 0) ()

/-- A user-supplied parser whose body raises a programmer error (any
thrown value that is not the library's `ParserError`). -/
def throwingLeaf : MuParser String Unit := fun _ => .error (.other "boom")

/-- A state focused on the number `5`. -/
def numState : ParserState Unit := ParserState.empty (.prim (.num 5)) ()

/-- The input `{a: 1}`, parsed below with a number-typed auxiliary state. -/
def auxHeap : Heap := [.obj [("a", .prim (.num 1))]]

/-- The root state over `auxHeap` with auxiliary state `0`. -/
def auxState0 : ParserState Nat := ParserState.empty (.ref 0) 0

/-! Inversion and frame lemmas about the structural combinators. -/

/-- A successful `parseObj` yields the focus itself and leaves the state
untouched. -/
lemma parseObj_ok_inv {S : Type} {st st' : ParserState S} {v : JsVal}
    (h : (parseObj : MuParser JsVal S) st = .ok (v, st')) : v = st.input ∧ st' = st := by
  unfold parseObj at h
  split_ifs at h with hc
  · unfold parserResult at h
    injection h with h1
    injection h1 with hv hst
    exact ⟨hv.symm, hst.symm⟩
  · unfold parserError at h
    cases h

/-- `parseObj` succeeds on every heap reference (object or array node). -/
lemma parseObj_ok_of_ref {S : Type} (st : ParserState S) (n : Nat) (h : st.input = .ref n) :
    (parseObj : MuParser JsVal S) st = .ok (st.input, st) := by
  unfold parseObj
  rw [if_pos]
  · rfl
  · constructor
    · rw [h]; rfl
    · rw [h]; intro hc; cases hc

/-- The member/descent step of `parseField` returns the undescended state
on success (`parserResult(result, ctx)` with the pre-descent `ctx`). -/
lemma parseFieldBody_ok_inv {T S : Type} {H : Heap} {name : String}
    {p : MuParser T S} {record : JsVal} {ctx st' : ParserState S} {v : T}
    (h : parseFieldBody H name p record ctx = .ok (v, st')) : st' = ctx := by
  unfold parseFieldBody at h
  split at h
  · split_ifs at h with hc
    · unfold parserError at h; cases h
    · split at h
      · unfold parserResult at h
        injection h with h1
        injection h1 with hv hst
        exact hst.symm
      · cases h
  · unfold parserError at h; cases h

/-- Frame property of `parseField`: a successful run returns exactly its
entry state. -/
lemma parseField_frame {T S : Type} {H : Heap} {name : String}
    {p : MuParser T S} {st st' : ParserState S} {v : T}
    (h : parseField H name p st = .ok (v, st')) : st' = st := by
  unfold parseField combine at h
  simp only [runBuilder] at h
  split at h
  next res ns heq =>
    obtain ⟨hv, hns⟩ := parseObj_ok_inv heq
    subst hns
    split at h
    next r2 ns2 heq2 =>
      have hb := parseFieldBody_ok_inv heq2
      injection h with h1
      injection h1 with h2 h3
      rw [← h3, hb]
    next => cases h
  next => cases h

/-- Frame property of `parseList`: a successful run returns exactly its
entry state. -/
lemma parseList_frame {T S : Type} {H : Heap}
    {p : MuParser T S} {st st' : ParserState S} {v : List T}
    (h : parseList H p st = .ok (v, st')) : st' = st := by
  unfold parseList at h
  split at h
  · split at h
    · split at h
      · unfold parserResult at h
        injection h with h1
        injection h1 with hv hst
        exact hst.symm
      · cases h
    · unfold parserError at h; cases h
  · unfold parserError at h; cases h

/-! The claims. -/

/-- C1: sibling independence of cycle detection.  A successful
`parseField` or `parseList` hands the rest of the parse a state whose
visited set is exactly the entry state's — every descent forks the
visited set (`ParserState.visiting` copies it) and the fork is discarded
on success, so nothing added during one sibling's descent is in the
visited set used for the other sibling; in particular the input
`{a: leaf, b: leaf}` whose two fields reference the identical nested
heap node parses successfully, with no false-positive
circular-reference error. -/
theorem sibling_descent_visited_independence :
    (∀ (T S : Type) (H : Heap) (name : String) (p : MuParser T S)
      (st st' : ParserState S) (v : T),
      parseField H name p st = .ok (v, st') → st'.visited = st.visited)
    ∧ (∀ (T S : Type) (H : Heap) (p : MuParser T S)
      (st st' : ParserState S) (v : List T),
      parseList H p st = .ok (v, st') → st'.visited = st.visited)
    ∧ runParser siblingParser0 (.ref 0) () (none : Option (ParserError → Unit))
        = .ok (.inl ("bar", "bar")) := by
  refine ⟨?_, ?_, by decide⟩
  · intro T S H name p st st' v h
    rw [parseField_frame h]
  · intro T S H p st st' v h
    rw [parseList_frame h]

/-- Witness for C1: a concrete successful field descent, with the visited
set unchanged. -/
theorem sibling_witness :
    parseField sibHeap "a" leafParser0 probeState = .ok ("bar", probeState)
    ∧ probeState.visited = probeState.visited :=
  ⟨by decide,
    sibling_descent_visited_independence.1 String Unit sibHeap "a" leafParser0
      probeState probeState "bar" (by decide)⟩

/-- C2: alternation restores the original state.  When a parser fails
with the library's own `ParserError`, `recover` runs the recovery parser
and `orElse` the alternative against the very state the failed parser
was started from — focus, path, visited set and auxiliary state exactly
as before — not against any state left by the failed branch. -/
theorem recover_orElse_restore_state :
    ∀ (T S : Type) (p : MuParser T S) (fn : ParserError → MuParser T S)
      (q : MuParser T S) (st : ParserState S) (e : ParserError),
      p st = .error (.parserErr e) →
      p.recover fn st = fn e st ∧ p.orElse q st = q st := by
  intro T S p fn q st e h
  constructor
  · unfold MuParser.recover
    rw [h]
  · unfold MuParser.orElse MuParser.recover
    rw [h]

/-- Witness for C2: recovery from a concrete `fail` runs the alternative
on the original state. -/
theorem recover_witness :
    (fail "nope" : MuParser String Unit).recover (fun e => success e.reason) probeState
        = success "nope" probeState
    ∧ (fail "nope" : MuParser String Unit).orElse (success "alt") probeState
        = success "alt" probeState :=
  recover_orElse_restore_state String Unit (fail "nope") (fun e => success e.reason)
    (success "alt") probeState ⟨"nope", []⟩ (by decide)

/-- C3: only the library's own error kind is ever caught.  `recover`,
`orElse` and `optional` pass any thrown value that is not a
`ParserError` through unmodified, and `runParser` never funnels such a
value into `onError` or the default fatal error — it propagates to the
caller unchanged. -/
theorem only_parser_error_caught :
    ∀ (T S T2 : Type) (p q : MuParser T S) (fn : ParserError → MuParser T S)
      (st : ParserState S) (s : String) (inputVal : JsVal) (init : S)
      (onErr : Option (ParserError → T2)),
      (p st = .error (.other s) →
        p.recover fn st = .error (.other s)
        ∧ p.orElse q st = .error (.other s)
        ∧ p.optional st = .error (.other s))
      ∧ (p (ParserState.empty inputVal init) = .error (.other s) →
        runParser p inputVal init onErr = .error (.other s)) := by
  intro T S T2 p q fn st s inputVal init onErr
  constructor
  · intro h
    refine ⟨?_, ?_, ?_⟩
    · unfold MuParser.recover
      rw [h]
    · unfold MuParser.orElse MuParser.recover
      rw [h]
    · unfold MuParser.optional MuParser.orElse MuParser.recover MuParser.map
      rw [h]
  · intro h
    unfold runParser
    rw [h]

/-- Witness for C3: a parser raising a programmer error propagates it
through `recover`, `orElse`, `optional` and `runParser` (even with an
`onError` handler installed). -/
theorem only_parser_error_witness :
    ((throwingLeaf.recover fun _ => success "y") probeState = .error (.other "boom")
      ∧ (throwingLeaf.orElse (success "x")) probeState = .error (.other "boom")
      ∧ throwingLeaf.optional probeState = .error (.other "boom"))
    ∧ runParser throwingLeaf (.ref 0) () (some reasonPath) = .error (.other "boom") :=
  ⟨(only_parser_error_caught String Unit (String × List JsKey) throwingLeaf (success "x")
      (fun _ => success "y") probeState "boom" (.ref 0) () (some reasonPath)).1 (by decide),
    (only_parser_error_caught String Unit (String × List JsKey) throwingLeaf (success "x")
      (fun _ => success "y") probeState "boom" (.ref 0) () (some reasonPath)).2 (by decide)⟩

/-- C4: combine-block threading.  A `bind` runs its parser against the
block's state as threaded so far — the head bind against the block's
entry state — and on success the rest of the block runs against the
parser's resulting state; on failure the error propagates at once out of
the whole block, whatever the continuation (the remaining statements
never run); a block with no binds left yields its value with the
threaded state. -/
theorem combine_bind_threading :
    ∀ (T R S : Type) (p : MuParser R S) (k : R → Builder S T) (st : ParserState S),
      (∀ (v : R) (st' : ParserState S), p st = .ok (v, st') →
        combine (.bind p k) st = combine (k v) st')
      ∧ (∀ e : Thrown, p st = .error e → combine (.bind p k) st = .error e)
      ∧ (∀ v : T, combine (.done v : Builder S T) st = .ok (v, st)) := by
  intro T R S p k st
  refine ⟨?_, ?_, ?_⟩
  · intro v st' h
    unfold combine
    simp only [runBuilder]
    rw [h]
  · intro e h
    unfold combine
    simp only [runBuilder]
    rw [h]
  · intro v
    rfl

/-- Witness for C4: a concrete bind threads a parsed number into its
continuation, and a concrete failing bind aborts the block. -/
theorem combine_witness :
    combine (.bind parseNum fun n => Builder.done (n + 1)) numState
      = combine (Builder.done ((5 : Int) + 1)) numState
    ∧ combine (.bind (fail "no" : MuParser Int Unit) fun n => Builder.done n) probeState
      = .error (.parserErr ⟨"no", []⟩)
    ∧ combine (Builder.done (7 : Int)) numState = .ok (7, numState) :=
  ⟨(combine_bind_threading Int Int Unit parseNum (fun n => Builder.done (n + 1)) numState).1
      5 numState (by decide),
    (combine_bind_threading Int Int Unit (fail "no") (fun n => Builder.done n) probeState).2.1
      (.parserErr ⟨"no", []⟩) (by decide),
    (combine_bind_threading Int Int Unit parseNum (fun n => Builder.done (n + 1)) numState).2.2 7⟩

/-- C5 is contradicted by the code: `parseList` performs no cycle check
on descent (`ParserState.visiting` only records, and the check that
`parseField` makes before descending has no counterpart in `parseList`).
On the self-referential array `a = [a]`, the inner list parse descends
into the element `a` — whose identity is already in the visited set —
and still runs the item parser on it, producing `number expected` at
path `[0, 0]` instead of the claimed `circular reference detected`. -/
theorem parseList_runs_item_on_revisited_element :
    runParser (parseList selfArrHeap (parseList selfArrHeap parseNum)) (.ref 0) ()
        (some reasonPath)
      = .ok (.inr ("number expected", [JsKey.idx 0, JsKey.idx 0]))
    ∧ "number expected" ≠ "circular reference detected" := by decide

/-- C6 counterexample: probing the self-loop `r = {next: r}` with
`field("next", field("next", parseStr))` reports the circular-reference
error at path `["next"]` — the path current when the check fires — not
at the claimed new path `["next", "next"]` that would include the
repeated segment. -/
theorem circular_error_path_excludes_repeated_segment :
    runParser circProbe (.ref 0) () (some reasonPath)
      = .ok (.inr ("circular reference detected", [JsKey.str "next"]))
    ∧ [JsKey.str "next"] ≠ [JsKey.str "next", JsKey.str "next"] := by decide

/-- C6 as amended: when `field(name, p)` is about to descend into a child
value whose identity is already in the visited set, it fails immediately
with reason `circular reference detected`, and the error's path is the
path current at the point of the check — NOT including `name` (the
repeated segment is not appended). -/
theorem parseField_circular_detection :
    ∀ (T S : Type) (H : Heap) (name : String) (p : MuParser T S)
      (st : ParserState S) (n : Nat) (next : JsVal),
      st.input = .ref n → getMember H st.input name = some next →
      next ∈ st.visited →
      parseField H name p st
        = .error (.parserErr ⟨"circular reference detected", st.path⟩) := by
  intro T S H name p st n next hin hmem hvis
  unfold parseField combine parseFieldBody
  simp only [runBuilder]
  rw [parseObj_ok_of_ref st n hin]
  dsimp only
  rw [hmem]
  dsimp only
  rw [if_pos hvis]
  rfl

/-- Witness for the amended C6: the state one `next`-descent into the
self-loop re-encounters the root and fails at path `["next"]`. -/
theorem circular_detection_witness :
    parseField loopHeap "next" (parseStr : MuParser String Unit)
        ((ParserState.empty (.ref 0) ()).visiting (.str "next") (.ref 0))
      = .error (.parserErr ⟨"circular reference detected", [JsKey.str "next"]⟩) :=
  parseField_circular_detection String Unit loopHeap "next" parseStr
    ((ParserState.empty (.ref 0) ()).visiting (.str "next") (.ref 0)) 0 (.ref 0)
    (by decide) (by decide) (by decide)

/-- C7: missing member.  `field(name, p)` applied to a non-null object
focus that does not have `name` as a key fails with reason
`property '<name>' expected` at the current path — not including the
missing field name; in particular `field("a", parseNum)` against `{}`
with an error handler yields that reason at the empty path. -/
theorem parseField_missing_property :
    (∀ (T S : Type) (H : Heap) (name : String) (p : MuParser T S)
      (st : ParserState S) (n : Nat),
      st.input = .ref n → getMember H st.input name = none →
      parseField H name p st
        = .error (.parserErr ⟨"property '" ++ name ++ "' expected", st.path⟩))
    ∧ runParser (parseField emptyObjHeap "a" parseNum) (.ref 0) () (some reasonPath)
        = .ok (.inr ("property 'a' expected", [])) := by
  constructor
  · intro T S H name p st n hin hmem
    unfold parseField combine parseFieldBody
    simp only [runBuilder]
    rw [parseObj_ok_of_ref st n hin]
    dsimp only
    rw [hmem]
    rfl
  · decide

/-- Witness for C7: the missing-member failure at the concrete input
`{}`. -/
theorem missing_property_witness :
    parseField emptyObjHeap "a" (parseNum : MuParser Int Unit) probeState
      = .error (.parserErr ⟨"property '" ++ "a" ++ "' expected", probeState.path⟩) :=
  parseField_missing_property.1 Int Unit emptyObjHeap "a" parseNum probeState 0
    (by decide) (by decide)

/-- C8 is contradicted by the code: `toJsonPointerRefToken` uses
JavaScript `String.replace` with a string pattern, which replaces only
the first occurrence, so the segment `a/b/c` renders as `/a~1b/c` in the
default fatal message instead of the fully JSON-Pointer-escaped
`/a~1b~1c`; the surrounding format — the message
`<reason> at path "<escaped-path>"`, a leading `/` per segment, the
empty path rendering as the empty string — is as claimed. -/
theorem jsonPointer_escapes_first_occurrence_only :
    runParser (parseField slashHeap "a/b/c" (parseField slashHeap "x" parseNum)) (.ref 0) ()
        (none : Option (ParserError → Unit))
      = .error (.other "property 'x' expected at path \"/a~1b/c\"")
    ∧ toJsonPointerRefToken (.str "a/b/c") = "/a~1b/c"
    ∧ "/a~1b/c" ≠ "/a~1b~1c"
    ∧ prettyPath [] = "" := by decide

/-- C9: `field(name, p)` discards the descent state on success — the
state handed to the rest of the chain is exactly the pre-descent state
(focus, path, visited set and auxiliary state), so auxiliary-state
updates performed by `p` inside the descent are invisible afterwards. -/
theorem parseField_discards_descent_state :
    ∀ (T S : Type) (H : Heap) (name : String) (p : MuParser T S)
      (st st' : ParserState S) (v : T),
      parseField H name p st = .ok (v, st') → st' = st := by
  intro T S H name p st st' v h
  exact parseField_frame h

/-- Witness for C9: an auxiliary-state increment made inside the descent
is discarded — the field parse succeeds with the incremented value `1`
yet the resulting state still carries auxiliary state `0`. -/
theorem discards_descent_witness :
    parseField auxHeap "a" (updateState fun n => n + 1) auxState0 = .ok (1, auxState0)
    ∧ auxState0 = auxState0 :=
  ⟨by decide,
    parseField_discards_descent_state Nat Nat auxHeap "a" (updateState fun n => n + 1)
      auxState0 auxState0 1 (by decide)⟩

/-- C10: `parseObj` succeeds exactly on the non-null values of runtime
type object — heap references, arrays included — returning the focus
itself with the state unchanged, and fails with `object expected` when
the focus is null or not of object type; consequently `field(name, p)`
on a reference focus (in particular an array) is not rejected at the
`parseObj` step but proceeds to the member step. -/
theorem parseObj_accepts_arrays :
    ∀ (S : Type) (st : ParserState S),
      ((parseObj : MuParser JsVal S) st = .ok (st.input, st)
        ↔ jsTypeof st.input = "object" ∧ st.input ≠ .prim .null)
      ∧ (∀ n : Nat, st.input = .ref n →
          (parseObj : MuParser JsVal S) st = .ok (st.input, st))
      ∧ ((st.input = .prim .null ∨ jsTypeof st.input ≠ "object") →
          (parseObj : MuParser JsVal S) st
            = .error (.parserErr ⟨"object expected", st.path⟩))
      ∧ (∀ (T : Type) (H : Heap) (name : String) (p : MuParser T S) (n : Nat),
          st.input = .ref n →
          parseField H name p st = parseFieldBody H name p st.input st) := by
  intro S st
  refine ⟨?_, ?_, ?_, ?_⟩
  · constructor
    · intro h
      unfold parseObj at h
      split_ifs at h with hc
      · exact hc
      · unfold parserError at h
        cases h
    · intro hc
      unfold parseObj
      rw [if_pos hc]
      rfl
  · intro n hin
    exact parseObj_ok_of_ref st n hin
  · intro hc
    unfold parseObj
    rw [if_neg]
    · rfl
    · rintro ⟨h1, h2⟩
      rcases hc with hc | hc
      · exact h2 hc
      · exact hc h1
  · intro T H name p n hin
    unfold parseField combine
    simp only [runBuilder]
    rw [parseObj_ok_of_ref st n hin]
    dsimp only
    cases hb : parseFieldBody H name p st.input st with
    | ok r =>
      obtain ⟨r1, r2⟩ := r
      rfl
    | error e =>
      rfl

/-- Witness for C10: `parseObj` accepts the array focus `[a]` and
`parseField` on it proceeds past the `parseObj` step. -/
theorem parseObj_witness :
    ((parseObj : MuParser JsVal Unit) (ParserState.empty (.ref 0) ())
        = .ok (.ref 0, ParserState.empty (.ref 0) ())
      ↔ jsTypeof (JsVal.ref 0) = "object" ∧ JsVal.ref 0 ≠ .prim .null)
    ∧ parseField selfArrHeap "x" (parseNum : MuParser Int Unit)
        (ParserState.empty (.ref 0) ())
      = parseFieldBody selfArrHeap "x" parseNum (.ref 0) (ParserState.empty (.ref 0) ()) :=
  ⟨(parseObj_accepts_arrays Unit (ParserState.empty (.ref 0) ())).1,
    (parseObj_accepts_arrays Unit (ParserState.empty (.ref 0) ())).2.2.2 Int selfArrHeap "x"
      parseNum 0 (by decide)⟩

end MuSpec
